import Mathlib

/-!
Verification of the open-planner repository's core numeric and
recurring-generation logic.

Numbers: the TypeScript code computes with IEEE doubles and the SQL layer
with DECIMAL(12,2); both are embedded here as exact rationals (ℚ), so every
arithmetic identity below is about the ideal arithmetic the formulas denote.
Dates are embedded as explicit year/month/day records with PostgreSQL's
calendar rules (make_date validates its day field and raises on an invalid
date; LEAST evaluates both arguments).
-/

namespace OpenPlanner

/-! ## Loan payment arithmetic
Embedded from `src/backend/planer-api/src/index.ts` (calculateMonthlyPayment,
calculateTotalLoanObligations) and `src/web/open-planner/src/routes/loans.tsx`
(calculateTotalMonthlyPayment). -/

/-- Embedding of `calculateMonthlyPayment` from
`src/backend/planer-api/src/index.ts`: amortized monthly payment.
`termMonths` is the integer number of monthly payments. -/
def calculateMonthlyPayment (principal annualInterestRate : ℚ) (termMonths : ℕ) : ℚ :=
  if termMonths = 0 then 0
  else if annualInterestRate = 0 then principal / termMonths
  else
    let monthlyRate := annualInterestRate / 12
    let numerator := monthlyRate * (1 + monthlyRate) ^ termMonths
    let denominator := (1 + monthlyRate) ^ termMonths - 1
    principal * (numerator / denominator)

/-- Reference definition written from the spec's words: returns 0 when
`termMonths == 0`; returns `principal / termMonths` when `annualRate == 0`;
otherwise `principal * (r * (1+r)^n) / ((1+r)^n - 1)` with `r = annualRate/12`
and `n = termMonths`. -/
def specMonthlyPayment (principal annualRate : ℚ) (termMonths : ℕ) : ℚ :=
  if termMonths = 0 then 0
  else if annualRate = 0 then principal / termMonths
  else
    let r := annualRate / 12
    principal * (r * (1 + r) ^ termMonths) / ((1 + r) ^ termMonths - 1)

/-- Calendar position of a date as JavaScript's `getFullYear`/`getMonth`
expose it (the month index is 0-based in JS; only differences of months
matter here, so the base does not). -/
structure YM where
  year : ℤ
  month : ℤ
deriving DecidableEq, Repr

/-- A loan row as both the backend and the frontend read it. -/
structure Loan where
  principal : ℚ
  interest_rate : ℚ
  term_months : ℕ
  start_date : YM
deriving DecidableEq, Repr

/-- Whole calendar months elapsed from `loan.start_date` to `now`, computed as
in the source: `(now.getFullYear() - start.getFullYear()) * 12 +
(now.getMonth() - start.getMonth())`, ignoring the day of month. -/
def monthsSinceStart (now : YM) (loan : Loan) : ℤ :=
  (now.year - loan.start_date.year) * 12 + (now.month - loan.start_date.month)

/-- The activity test both totals use: a loan is active iff the months elapsed
since its start are strictly below its term. -/
def loanIsActive (now : YM) (loan : Loan) : Bool :=
  monthsSinceStart now loan < (loan.term_months : ℤ)

/-- Embedding of `calculateTotalLoanObligations` from
`src/backend/planer-api/src/index.ts`: reduce over the loans, adding the
monthly payment of each loan that has not exceeded its term. `now` stands for
the `new Date()` the source reads. -/
def calculateTotalLoanObligations (now : YM) (loans : List Loan) : ℚ :=
  loans.foldl
    (fun total loan =>
      if loanIsActive now loan then
        total + calculateMonthlyPayment loan.principal loan.interest_rate loan.term_months
      else total)
    0

/-- Embedding of the frontend `calculateTotalMonthlyPayment` from
`src/web/open-planner/src/routes/loans.tsx`. Note the source returns the
zero-interest contribution `principal / term_months` before it reaches the
activity check; only the nonzero-rate branch tests `monthsSinceStart`. -/
def calculateTotalMonthlyPayment (now : YM) (loans : List Loan) : ℚ :=
  loans.foldl
    (fun total loan =>
      if loan.term_months = 0 then total
      else if loan.interest_rate = 0 then total + loan.principal / loan.term_months
      else
        let monthlyRate := loan.interest_rate / 12
        let numerator := monthlyRate * (1 + monthlyRate) ^ loan.term_months
        let denominator := (1 + monthlyRate) ^ loan.term_months - 1
        let monthlyPayment := loan.principal * (numerator / denominator)
        if loanIsActive now loan then total + monthlyPayment else total)
    0

/-! ## Insights rules
Embedded from `src/backend/api/src/utils/categories.ts`. The human-readable
`title`/`message` strings of an insight are presentation-only and are omitted
from the embedding; the claims concern which insight is emitted and with which
type and severity. -/

inductive InsightType where
  | overspending
  | loanAcceleration
  | monthOverMonth
deriving DecidableEq, Repr

inductive Severity where
  | info
  | warning
  | error
  | success
deriving DecidableEq, Repr

structure Insight where
  type : InsightType
  severity : Severity
deriving DecidableEq, Repr

/-- Embedding of `detectOverspending` from
`src/backend/api/src/utils/categories.ts`. -/
def detectOverspending (income expenses loanObligations : ℚ) : Option Insight :=
  let totalObligations := expenses + loanObligations
  let remainingBalance := income - totalObligations
  if remainingBalance < 0 then
    some { type := .overspending, severity := .error }
  else if 0 < income ∧ totalObligations / income > 9/10 then
    some { type := .overspending, severity := .warning }
  else if 0 < income ∧ totalObligations / income > 7/10 ∧ totalObligations / income ≤ 9/10 then
    some { type := .overspending, severity := .info }
  else none

/-- Reference cascade written from the claim's words: error iff
`expenses+loanObligations > income`; otherwise warning iff the ratio exceeds
0.9; otherwise info iff the ratio lies in (0.7, 0.9]; otherwise nothing.
(ℚ division by zero is 0, so at `income = 0` the ratio reads as 0.) -/
def specOverspending (income expenses loanObligations : ℚ) : Option Insight :=
  let ratio := (expenses + loanObligations) / income
  if expenses + loanObligations > income then some { type := .overspending, severity := .error }
  else if ratio > 9/10 then some { type := .overspending, severity := .warning }
  else if 7/10 < ratio ∧ ratio ≤ 9/10 then some { type := .overspending, severity := .info }
  else none

/-- The percentage-change expression `compareMonthOverMonth` computes:
`previous > 0 ? ((current - previous) / previous) * 100 : 0`. -/
def percentChange (current previous : ℚ) : ℚ :=
  if 0 < previous then (current - previous) / previous * 100 else 0

/-- Embedding of `compareMonthOverMonth` from
`src/backend/api/src/utils/categories.ts`. -/
def compareMonthOverMonth (currentIncome currentExpenses previousIncome previousExpenses : ℚ) :
    Option Insight :=
  if previousIncome = 0 ∧ previousExpenses = 0 then none
  else
    let incomeChange := percentChange currentIncome previousIncome
    let expenseChange := percentChange currentExpenses previousExpenses
    if |incomeChange| > 10 ∨ |expenseChange| > 10 then
      some { type := .monthOverMonth,
             severity := if incomeChange < -10 ∨ expenseChange > 10 then .warning else .info }
    else none

/-! ## Recurring-expense generation
Embedded from the SQL function `generate_recurring_expenses`
(`src/unnamed/part_014`). The embedding fixes one user (the SQL filters rows
by the resolved `user_id`; the claims quantify per user) and takes the target
year/month explicitly (the SQL defaults them to the current date when NULL).
PostgreSQL semantics that matter here and are part of the embedding:
`MAKE_DATE` raises `date field value out of range` on a day that does not
exist in the month, `LEAST` evaluates both of its arguments, an `INSERT`
violating the `expenses.category_id REFERENCES categories(id)` foreign key
raises, and an unhandled exception aborts the whole function call and rolls
its effects back (the function body declares no EXCEPTION handler). -/

/-- A calendar date, `year-month-day`. -/
structure Date where
  year : ℕ
  month : ℕ
  day : ℕ
deriving DecidableEq, Repr

/-- Date comparison, lexicographic on year, month, day. -/
def Date.le (a b : Date) : Bool :=
  if a.year ≠ b.year then a.year < b.year
  else if a.month ≠ b.month then a.month < b.month
  else a.day ≤ b.day

def isLeapYear (y : ℕ) : Bool :=
  (y % 4 = 0 && y % 100 ≠ 0) || y % 400 = 0

def daysInMonth (y m : ℕ) : ℕ :=
  if m = 2 then (if isLeapYear y then 29 else 28)
  else if m = 4 ∨ m = 6 ∨ m = 9 ∨ m = 11 then 30
  else 31

/-- Errors `generate_recurring_expenses` can raise. -/
inductive GenError where
  | userNotFound
  | dateOutOfRange
  | categoryNotFound
deriving DecidableEq, Repr

/-- PostgreSQL `MAKE_DATE(y, m, d)`: builds the date when the field values
form a real calendar date and raises `date field value out of range`
otherwise (it does not clamp). -/
def make_date (y m d : ℕ) : Except GenError Date :=
  if 1 ≤ y ∧ 1 ≤ m ∧ m ≤ 12 ∧ 1 ≤ d ∧ d ≤ daysInMonth y m then
    .ok ⟨y, m, d⟩
  else .error .dateOutOfRange

/-- `DATE_TRUNC('month', d)` at date precision: the first day of `d`'s month. -/
def monthTrunc (d : Date) : Date :=
  ⟨d.year, d.month, 1⟩

/-- A row of the `recurring_items` table (columns the generation reads). -/
structure RecurringItem where
  id : ℕ
  category_id : ℕ
  amount : ℚ
  description : Option String
  day_of_month : ℕ
  start_date : Date
  last_generated_month : Option Date
  is_active : Bool
deriving DecidableEq, Repr

/-- A row of the `expenses` table (columns the generation writes). -/
structure Expense where
  category_id : ℕ
  amount : ℚ
  description : String
  date : Date
deriving DecidableEq, Repr

/-- The slice of the database one user's generation run touches:
the ids of existing `categories` rows (the target of the foreign key on
`expenses.category_id`), the user's `recurring_items`, and the user's
`expenses`. -/
structure DBState where
  categories : List ℕ
  recurring_items : List RecurringItem
  expenses : List Expense
deriving DecidableEq, Repr

/-- `INSERT INTO expenses ...`: appends the row when its `category_id`
satisfies the foreign key into `categories`, raises otherwise. -/
def insertExpense (σ : DBState) (e : Expense) : Except GenError DBState :=
  if e.category_id ∈ σ.categories then
    .ok { σ with expenses := σ.expenses ++ [e] }
  else .error .categoryNotFound

/-- `UPDATE recurring_items SET last_generated_month = key WHERE id = itemId`. -/
def markGenerated (σ : DBState) (itemId : ℕ) (key : Date) : DBState :=
  { σ with
    recurring_items := σ.recurring_items.map fun r =>
      if r.id = itemId then { r with last_generated_month := some key } else r }

/-- The `WHERE` clause of the generation loop's query: active items whose
`start_date` is on or before the last day of the target month. -/
def itemSelected (lastOfMonth : Date) (r : RecurringItem) : Bool :=
  r.is_active && r.start_date.le lastOfMonth

/-- One iteration of the generation loop, threading
`(generated_count, skipped_count, state)`. -/
def generateStep (y m : ℕ) (firstOfMonth lastOfMonth monthKey : Date)
    (acc : ℕ × ℕ × DBState) (item : RecurringItem) : Except GenError (ℕ × ℕ × DBState) :=
  if item.last_generated_month.map monthTrunc = some monthKey then
    .ok (acc.1, acc.2.1 + 1, acc.2.2)
  else do
    let candidate ← make_date y m item.day_of_month
    let expenseDate := if candidate.le lastOfMonth then candidate else lastOfMonth
    if firstOfMonth.le expenseDate && expenseDate.le lastOfMonth then do
      let σ' ← insertExpense acc.2.2
        { category_id := item.category_id
          amount := item.amount
          description := item.description.getD "Recurring expense"
          date := expenseDate }
      .ok (acc.1 + 1, acc.2.1, markGenerated σ' item.id monthKey)
    else
      .ok (acc.1, acc.2.1 + 1, acc.2.2)

/-- Embedding of the SQL function `generate_recurring_expenses` from
`src/unnamed/part_014` for one user and an explicit target month. Returns
`(generated_count, skipped_count)` together with the database state after the
call; an error return models the raised exception that aborts the call and
rolls back its effects. -/
def generate_recurring_expenses (σ : DBState) (y m : ℕ) :
    Except GenError (ℕ × ℕ × DBState) := do
  let firstOfMonth ← make_date y m 1
  let lastOfMonth : Date := ⟨y, m, daysInMonth y m⟩
  let monthKey := monthTrunc firstOfMonth
  let snapshot := σ.recurring_items.filter (itemSelected lastOfMonth)
  snapshot.foldlM (generateStep y m firstOfMonth lastOfMonth monthKey) (0, 0, σ)

/-! ## Helper definitions used by the verification -/

/-- Present value of an `n`-payment annuity of 1 at monthly rate `x`:
`∑ k in [1..n], (1+x)^(-k)`. The amortization formula is `principal` divided
by this factor, which is how monotonicity in the rate is established. -/
def annuityFactor (x : ℚ) (n : ℕ) : ℚ :=
  ∑ k in Finset.range n, (1 / (1 + x)) ^ (k + 1)

/-- Per-loan contribution of the backend total: the monthly payment while the
loan is active, 0 afterwards. -/
def backendLoanContribution (now : YM) (l : Loan) : ℚ :=
  if loanIsActive now l then
    calculateMonthlyPayment l.principal l.interest_rate l.term_months
  else 0

/-- Per-loan contribution of the frontend total: zero-rate loans contribute
`principal / term_months` unconditionally (the source returns before the
activity check on that branch); nonzero-rate loans contribute only while
active. -/
def frontendLoanContribution (now : YM) (l : Loan) : ℚ :=
  if l.term_months = 0 then 0
  else if l.interest_rate = 0 then l.principal / l.term_months
  else if loanIsActive now l then
    calculateMonthlyPayment l.principal l.interest_rate l.term_months
  else 0

/-- Loans on which the two totals disagree: zero-interest loans with a
nonzero term that are no longer active. -/
def zeroRateInactive (now : YM) (l : Loan) : Bool :=
  !loanIsActive now l && decide (l.interest_rate = 0) && decide (l.term_months ≠ 0)

/-- The `UPDATE` the generation applies to a row: set its
`last_generated_month` to the month key. -/
def setKey (key : Date) (r : RecurringItem) : RecurringItem :=
  { r with last_generated_month := some key }

/-- How one generation run can change a `recurring_items` row: left untouched,
or marked with the month key. -/
def rowEvolves (key : Date) (r0 r1 : RecurringItem) : Prop :=
  r1 = r0 ∨ r1 = setKey key r0

/-- The expense row `generate_recurring_expenses` inserts for `item` in the
target month (its date is `make_date y m item.day_of_month`, which is also the
clamped date whenever `make_date` succeeds). -/
def expenseOf (y m : ℕ) (item : RecurringItem) : Expense :=
  { category_id := item.category_id
    amount := item.amount
    description := item.description.getD "Recurring expense"
    date := ⟨y, m, item.day_of_month⟩ }

/-! ## Loan totals: fold lemmas -/

theorem foldl_add_eq_sum (f : Loan → ℚ) (g : ℚ → Loan → ℚ)
    (hg : ∀ t l, g t l = t + f l) :
    ∀ (loans : List Loan) (a : ℚ), loans.foldl g a = a + (loans.map f).sum := by
  intro loans
  induction loans with
  | nil => intro a; simp
  | cons l ls ih =>
    intro a
    simp only [List.foldl_cons, List.map_cons, List.sum_cons, hg, ih]
    ring

theorem backend_total_eq_sum (now : YM) (loans : List Loan) :
    calculateTotalLoanObligations now loans =
      (loans.map (backendLoanContribution now)).sum := by
  have h := foldl_add_eq_sum (backendLoanContribution now)
    (fun total loan =>
      if loanIsActive now loan then
        total + calculateMonthlyPayment loan.principal loan.interest_rate loan.term_months
      else total)
    (by
      intro t l
      unfold backendLoanContribution
      split_ifs with h <;> simp [h])
    loans 0
  unfold calculateTotalLoanObligations
  rw [h, zero_add]

theorem frontend_total_eq_sum (now : YM) (loans : List Loan) :
    calculateTotalMonthlyPayment now loans =
      (loans.map (frontendLoanContribution now)).sum := by
  have h := foldl_add_eq_sum (frontendLoanContribution now)
    (fun total loan =>
      if loan.term_months = 0 then total
      else if loan.interest_rate = 0 then total + loan.principal / loan.term_months
      else
        let monthlyRate := loan.interest_rate / 12
        let numerator := monthlyRate * (1 + monthlyRate) ^ loan.term_months
        let denominator := (1 + monthlyRate) ^ loan.term_months - 1
        let monthlyPayment := loan.principal * (numerator / denominator)
        if loanIsActive now loan then total + monthlyPayment else total)
    (by
      intro t l
      unfold frontendLoanContribution calculateMonthlyPayment
      by_cases h0 : l.term_months = 0
      · simp [h0]
      · by_cases hr : l.interest_rate = 0
        · simp [h0, hr]
        · simp only [h0, hr, if_false]
          split_ifs <;> ring)
    loans 0
  unfold calculateTotalMonthlyPayment
  rw [h, zero_add]

/-- C5: the backend total equals the sum of `calculateMonthlyPayment` over
exactly the active loans (active iff whole months elapsed since start,
ignoring day of month, are strictly below the term); inactive loans
contribute zero. -/
theorem claim_C5_total_obligations_sum_active (now : YM) (loans : List Loan) :
    calculateTotalLoanObligations now loans =
      ((loans.filter fun l => loanIsActive now l).map
        fun l => calculateMonthlyPayment l.principal l.interest_rate l.term_months).sum := by
  rw [backend_total_eq_sum]
  induction loans with
  | nil => rfl
  | cons l ls ih =>
    simp only [List.map_cons, List.sum_cons, List.filter_cons]
    by_cases hact : loanIsActive now l
    · simp only [hact, if_true, List.map_cons, List.sum_cons, ih]
      unfold backendLoanContribution
      rw [if_pos hact]
    · rw [ih]
      unfold backendLoanContribution
      simp [hact]

/-! ## C10: frontend vs backend totals -/

/-- C10 counterexample: a paid-off zero-interest loan (1200 over 12 months,
started January 2023, evaluated October 2026, 45 months later) is still
included by the frontend total (1200/12 = 100) but excluded by the backend
total (0), so the two functions disagree. -/
theorem claim_C10_counterexample :
    calculateTotalMonthlyPayment ⟨2026, 9⟩ [⟨1200, 0, 12, ⟨2023, 0⟩⟩] ≠
      calculateTotalLoanObligations ⟨2026, 9⟩ [⟨1200, 0, 12, ⟨2023, 0⟩⟩] := by
  have h1 : calculateTotalMonthlyPayment ⟨2026, 9⟩ [⟨1200, 0, 12, ⟨2023, 0⟩⟩] = 100 := by
    norm_num [calculateTotalMonthlyPayment, loanIsActive, monthsSinceStart]
  have h2 : calculateTotalLoanObligations ⟨2026, 9⟩ [⟨1200, 0, 12, ⟨2023, 0⟩⟩] = 0 := by
    norm_num [calculateTotalLoanObligations, loanIsActive, monthsSinceStart]
  rw [h1, h2]
  norm_num

/-- C10 amended: on every loan list evaluated at the same current date, the
frontend total exceeds the backend total by exactly the sum of
`principal / term_months` over the zero-interest-rate loans with nonzero term
that are no longer active; in particular the two totals agree iff that set
contributes zero, not in general. -/
theorem claim_C10_amended_frontend_backend (now : YM) (loans : List Loan) :
    calculateTotalMonthlyPayment now loans =
      calculateTotalLoanObligations now loans +
        ((loans.filter (zeroRateInactive now)).map
          fun l => l.principal / (l.term_months : ℚ)).sum := by
  rw [frontend_total_eq_sum, backend_total_eq_sum]
  induction loans with
  | nil => simp
  | cons l ls ih =>
    by_cases hz : zeroRateInactive now l = true
    · obtain ⟨⟨hact, hr⟩, ht⟩ :
          (loanIsActive now l = false ∧ l.interest_rate = 0) ∧ l.term_months ≠ 0 := by
        unfold zeroRateInactive at hz
        simpa using hz
      have hf : frontendLoanContribution now l = l.principal / (l.term_months : ℚ) := by
        unfold frontendLoanContribution
        rw [if_neg ht, if_pos hr]
      have hb : backendLoanContribution now l = 0 := by
        unfold backendLoanContribution
        rw [if_neg (by simp [hact])]
      rw [List.filter_cons_of_pos hz]
      simp only [List.map_cons, List.sum_cons, hf, hb, ih]
      ring
    · have hcontrib : frontendLoanContribution now l = backendLoanContribution now l := by
        unfold frontendLoanContribution backendLoanContribution
        by_cases h0 : l.term_months = 0
        · have hpay : calculateMonthlyPayment l.principal l.interest_rate l.term_months = 0 := by
            unfold calculateMonthlyPayment
            rw [if_pos h0]
          have hpay0 : calculateMonthlyPayment l.principal l.interest_rate 0 = 0 := by
            unfold calculateMonthlyPayment
            rw [if_pos rfl]
          simp [h0, hpay, hpay0]
        · by_cases hr : l.interest_rate = 0
          · have hact : loanIsActive now l = true := by
              by_contra hno
              rw [Bool.not_eq_true] at hno
              exact hz (by unfold zeroRateInactive; simp [hno, hr, h0])
            have hpay : calculateMonthlyPayment l.principal l.interest_rate l.term_months =
                l.principal / (l.term_months : ℚ) := by
              unfold calculateMonthlyPayment
              rw [if_neg h0, if_pos hr]
            rw [if_neg h0, if_pos hr, if_pos hact, hpay]
          · rw [if_neg h0, if_neg hr]
      rw [List.filter_cons_of_neg hz]
      simp only [List.map_cons, List.sum_cons, hcontrib, ih]
      ring

/-! ## C2 and C9: the amortization formula -/

/-- C2: for every principal > 0, annual rate in [0,1] and integer term ≥ 0,
`calculateMonthlyPayment` coincides with the spec's piecewise reference
definition. -/
theorem claim_C2_payment_matches_spec (principal annualRate : ℚ) (termMonths : ℕ)
    (_hp : 0 < principal) (_hr0 : 0 ≤ annualRate) (_hr1 : annualRate ≤ 1) :
    calculateMonthlyPayment principal annualRate termMonths =
      specMonthlyPayment principal annualRate termMonths := by
  unfold calculateMonthlyPayment specMonthlyPayment
  split_ifs
  · rfl
  · rfl
  · ring

/-- Witness for C2 at principal 100, rate 1/20, term 10. -/
theorem claim_C2_witness :
    0 < (100 : ℚ) ∧ 0 ≤ (1/20 : ℚ) ∧ (1/20 : ℚ) ≤ 1 ∧
      calculateMonthlyPayment 100 (1/20) 10 = specMonthlyPayment 100 (1/20) 10 :=
  ⟨by norm_num, by norm_num, by norm_num,
    claim_C2_payment_matches_spec 100 (1/20) 10 (by norm_num) (by norm_num) (by norm_num)⟩

/-- C9 counterexample: `calculateMonthlyPayment(12000, 0.06, 12)` does NOT
agree with 1030.20 to 2 decimal places — the closed-form annuity value is
12000·(r(1+r)¹²)/((1+r)¹²−1) with r = 0.005, which is ≈ 1032.80, about 2.60
away from the spec's stated 1030.20. -/
theorem claim_C9_counterexample :
    ¬ |calculateMonthlyPayment 12000 (6/100) 12 - 10302/10| < 1/200 := by
  unfold calculateMonthlyPayment
  norm_num [abs_lt]

/-- C9 amended: the concrete scenario's payment is ≈ 1032.80, agreeing with
the closed-form annuity formula to 2 decimal places (within 0.005). -/
theorem claim_C9_amended_value :
    |calculateMonthlyPayment 12000 (6/100) 12 - 10328/10| < 1/200 := by
  unfold calculateMonthlyPayment
  norm_num [abs_lt]

/-! ## C6: overspending rule -/

/-- C6: for nonnegative income, expenses and loan obligations,
`detectOverspending` implements exactly the claim's cascade: error-severity
iff spending exceeds income, else warning iff the spend/income ratio exceeds
0.9, else info iff the ratio lies in (0.7, 0.9], else no insight. -/
theorem claim_C6_overspending_cascade (income expenses loanObligations : ℚ)
    (hi : 0 ≤ income) (he : 0 ≤ expenses) (hl : 0 ≤ loanObligations) :
    detectOverspending income expenses loanObligations =
      specOverspending income expenses loanObligations := by
  simp only [detectOverspending, specOverspending]
  rcases eq_or_lt_of_le hi with h0 | h0
  · -- income = 0: both sides reduce to "error iff any spending at all"
    subst h0
    by_cases hpos : 0 < expenses + loanObligations
    · rw [if_pos (show (0:ℚ) - (expenses + loanObligations) < 0 by linarith),
        if_pos (show expenses + loanObligations > (0:ℚ) from hpos)]
    · have ht0 : expenses + loanObligations = 0 := le_antisymm (not_lt.mp hpos) (by linarith)
      rw [ht0]
      norm_num
  · -- 0 < income
    have h1 : (income - (expenses + loanObligations) < 0) ↔
        (income < expenses + loanObligations) := by
      constructor <;> intro h <;> linarith
    simp only [gt_iff_lt, h1, eq_true h0, true_and]

/-- Witness for C6 at the claim's concrete instance income=1000,
expenses=950, loanObligations=0: exactly one overspending insight, severity
warning (ratio 0.95 > 0.9). -/
theorem claim_C6_witness :
    detectOverspending 1000 950 0 = some { type := .overspending, severity := .warning } :=
  (claim_C6_overspending_cascade 1000 950 0 (by norm_num) (by norm_num) (by norm_num)).trans
    (by norm_num [specOverspending])

/-! ## C7: month-over-month rule -/

/-- C7: `compareMonthOverMonth` skips entirely when both previous-month
aggregates are zero, whatever the current values; otherwise it emits an
insight iff the absolute percentage change in income or expenses exceeds 10
(the change reading 0 when the corresponding previous value is not positive,
as the source computes it), with severity warning iff income dropped more
than 10% or expenses rose more than 10%, and info otherwise. -/
theorem claim_C7_month_over_month (ci ce pi pe : ℚ) :
    (pi = 0 → pe = 0 → compareMonthOverMonth ci ce pi pe = none) ∧
    (¬(pi = 0 ∧ pe = 0) →
      ((∃ ins, compareMonthOverMonth ci ce pi pe = some ins) ↔
        |percentChange ci pi| > 10 ∨ |percentChange ce pe| > 10) ∧
      ∀ ins, compareMonthOverMonth ci ce pi pe = some ins →
        ins.type = .monthOverMonth ∧
        (ins.severity = .warning ↔ percentChange ci pi < -10 ∨ percentChange ce pe > 10) ∧
        (ins.severity = .info ↔ ¬(percentChange ci pi < -10 ∨ percentChange ce pe > 10))) := by
  constructor
  · intro h1 h2
    unfold compareMonthOverMonth
    rw [if_pos ⟨h1, h2⟩]
  · intro hne
    unfold compareMonthOverMonth
    rw [if_neg hne]
    by_cases hbig : |percentChange ci pi| > 10 ∨ |percentChange ce pe| > 10
    · rw [if_pos hbig]
      refine ⟨⟨fun _ => hbig, fun _ => ⟨_, rfl⟩⟩, ?_⟩
      intro ins hins
      have hins' := (Option.some_injective _ hins.symm)
      subst hins'
      refine ⟨rfl, ?_, ?_⟩
      · by_cases hc : percentChange ci pi < -10 ∨ percentChange ce pe > 10
        · rw [if_pos hc]
          exact iff_of_true rfl hc
        · rw [if_neg hc]
          exact iff_of_false (by simp) hc
      · by_cases hc : percentChange ci pi < -10 ∨ percentChange ce pe > 10
        · rw [if_pos hc]
          exact iff_of_false (by simp) (not_not_intro hc)
        · rw [if_neg hc]
          exact iff_of_true rfl hc
    · rw [if_neg hbig]
      refine ⟨⟨?_, fun h => absurd h hbig⟩, ?_⟩
      · rintro ⟨ins, h⟩
        exact absurd h (by simp)
      · intro ins h
        exact absurd h (by simp)

/-- Witness for C7 at current income 200, previous income 100 (a +100%
change), previous expenses 0: the rule is not skipped and emits an insight. -/
theorem claim_C7_witness :
    ¬((100 : ℚ) = 0 ∧ (0 : ℚ) = 0) ∧ ∃ ins, compareMonthOverMonth 200 0 100 0 = some ins := by
  have hne : ¬((100 : ℚ) = 0 ∧ (0 : ℚ) = 0) := by norm_num
  refine ⟨hne, ?_⟩
  exact ((claim_C7_month_over_month 200 0 100 0).2 hne).1.mpr
    (Or.inl (by norm_num [percentChange]))

/-! ## C8: monotonicity of the payment in the rate
The route is the classical annuity identity: for a positive monthly rate `x`
and `n ≥ 1` payments, `x(1+x)^n/((1+x)^n - 1)` is the reciprocal of the
annuity present-value factor `∑ k in [1..n], (1+x)^(-k)`, which is positive
and antitone in `x`; hence the payment is monotone in the rate. -/

theorem annuityFactor_pos {x : ℚ} (hx : 0 < x) {n : ℕ} (hn : 0 < n) :
    0 < annuityFactor x n := by
  unfold annuityFactor
  apply Finset.sum_pos
  · intro k _
    have h1x : (0:ℚ) < 1 + x := by linarith
    positivity
  · exact Finset.nonempty_range_iff.mpr hn.ne'

theorem annuityFactor_antitone {x1 x2 : ℚ} (h1 : 0 < x1) (h12 : x1 ≤ x2) (n : ℕ) :
    annuityFactor x2 n ≤ annuityFactor x1 n := by
  unfold annuityFactor
  apply Finset.sum_le_sum
  intro k _
  have h1x2 : (0:ℚ) < 1 + x2 := by linarith
  apply pow_le_pow_left₀ (by positivity)
  exact one_div_le_one_div_of_le (by linarith) (by linarith)

theorem annuityFactor_mul_eq_one {x : ℚ} (hx : 0 < x) {n : ℕ} (hn : 0 < n) :
    annuityFactor x n * (x * (1 + x) ^ n / ((1 + x) ^ n - 1)) = 1 := by
  have h1x : (0:ℚ) < 1 + x := by linarith
  have h1x' : (1:ℚ) + x ≠ 0 := ne_of_gt h1x
  have hq : (1:ℚ) / (1 + x) ≠ 1 := by
    intro h
    rw [div_eq_iff h1x', one_mul] at h
    linarith
  have hpow : (1:ℚ) < (1 + x) ^ n := one_lt_pow₀ (by linarith) hn.ne'
  have hden : ((1:ℚ) + x) ^ n - 1 ≠ 0 := by
    intro h
    have : ((1:ℚ) + x) ^ n = 1 := by linarith
    rw [this] at hpow
    exact lt_irrefl 1 hpow
  have hpow0 : ((1:ℚ) + x) ^ n ≠ 0 := by positivity
  have hsum : annuityFactor x n = (∑ k in Finset.range n, (1 / (1 + x)) ^ k) * (1 / (1 + x)) := by
    unfold annuityFactor
    rw [Finset.sum_mul]
    apply Finset.sum_congr rfl
    intro k _
    rw [pow_succ]
  rw [hsum, geom_sum_eq hq]
  rw [div_pow, one_pow]
  field_simp
  ring

theorem payment_eq_div_annuityFactor {p r : ℚ} (hr : 0 < r) {n : ℕ} (hn : 0 < n) :
    calculateMonthlyPayment p r n = p / annuityFactor (r / 12) n := by
  have hx : 0 < r / 12 := by positivity
  have hkey := annuityFactor_mul_eq_one hx hn
  have hA : r / 12 * (1 + r / 12) ^ n / ((1 + r / 12) ^ n - 1) =
      1 / annuityFactor (r / 12) n :=
    eq_one_div_of_mul_eq_one_left ((mul_comm _ _).trans hkey)
  unfold calculateMonthlyPayment
  rw [if_neg hn.ne', if_neg hr.ne']
  simp only []
  rw [hA, mul_one_div]

/-- C8: for fixed positive principal and positive integer term, the monthly
payment is monotonically non-decreasing in the annual rate on rates
`0 < r1 ≤ r2`. -/
theorem claim_C8_payment_monotone_in_rate (principal r1 r2 : ℚ) (n : ℕ)
    (hp : 0 < principal) (hn : 0 < n) (h1 : 0 < r1) (h12 : r1 ≤ r2) :
    calculateMonthlyPayment principal r1 n ≤ calculateMonthlyPayment principal r2 n := by
  have h2 : 0 < r2 := lt_of_lt_of_le h1 h12
  rw [payment_eq_div_annuityFactor h1 hn, payment_eq_div_annuityFactor h2 hn]
  have hS2 : 0 < annuityFactor (r2 / 12) n := annuityFactor_pos (by positivity) hn
  have hle : annuityFactor (r2 / 12) n ≤ annuityFactor (r1 / 12) n :=
    annuityFactor_antitone (by positivity) (by linarith) n
  rw [div_eq_mul_inv, div_eq_mul_inv]
  apply mul_le_mul_of_nonneg_left _ hp.le
  exact inv_anti₀ hS2 hle

/-- Witness for C8 at principal 1200, term 12, rates 5% and 10%. -/
theorem claim_C8_witness :
    0 < (1200 : ℚ) ∧ 0 < 12 ∧ 0 < (1/20 : ℚ) ∧ (1/20 : ℚ) ≤ 1/10 ∧
      calculateMonthlyPayment 1200 (1/20) 12 ≤ calculateMonthlyPayment 1200 (1/10) 12 :=
  ⟨by norm_num, by norm_num, by norm_num, by norm_num,
    claim_C8_payment_monotone_in_rate 1200 (1/20) (1/10) 12 (by norm_num) (by norm_num)
      (by norm_num) (by norm_num)⟩

/-! ## Generation loop: basic date facts -/

theorem daysInMonth_pos (y m : ℕ) : 1 ≤ daysInMonth y m := by
  unfold daysInMonth
  split_ifs <;> norm_num

theorem make_date_ok {y m d : ℕ} {c : Date} (h : make_date y m d = .ok c) :
    c = ⟨y, m, d⟩ ∧ 1 ≤ y ∧ 1 ≤ m ∧ m ≤ 12 ∧ 1 ≤ d ∧ d ≤ daysInMonth y m := by
  unfold make_date at h
  split_ifs at h with hc
  · injection h with h'
    subst h'
    exact ⟨rfl, hc.1, hc.2.1, hc.2.2.1, hc.2.2.2.1, hc.2.2.2.2⟩

theorem make_date_valid {y m d : ℕ} (hy : 1 ≤ y) (hm1 : 1 ≤ m) (hm2 : m ≤ 12)
    (hd1 : 1 ≤ d) (hd2 : d ≤ daysInMonth y m) : make_date y m d = .ok ⟨y, m, d⟩ := by
  unfold make_date
  rw [if_pos ⟨hy, hm1, hm2, hd1, hd2⟩]

theorem Date.le_days {y m d1 d2 : ℕ} (h : d1 ≤ d2) :
    Date.le ⟨y, m, d1⟩ ⟨y, m, d2⟩ = true := by
  simp [Date.le, h]

/-! ## Generation loop: step characterizations -/

theorem bind_ok_eq {ε α β : Type} (a : α) (f : α → Except ε β) :
    (Except.ok a >>= f : Except ε β) = f a := rfl

theorem bind_error_eq {ε α β : Type} (e : ε) (f : α → Except ε β) :
    ((Except.error e : Except ε α) >>= f : Except ε β) = Except.error e := rfl

theorem map_ok_eq {ε α β : Type} (a : α) (f : α → β) :
    (Except.ok a : Except ε α).map f = Except.ok (f a) := rfl

theorem map_error_eq {ε α β : Type} (e : ε) (f : α → β) :
    (Except.error e : Except ε α).map f = (Except.error e : Except ε β) := rfl

theorem generateStep_skip {y m : ℕ} {first last key : Date} {g s : ℕ} {σ : DBState}
    {item : RecurringItem} (h : item.last_generated_month.map monthTrunc = some key) :
    generateStep y m first last key (g, s, σ) item = .ok (g, s + 1, σ) := by
  unfold generateStep
  rw [if_pos h]

/-- When the month marker does not match, the step for the concrete
first/last/key dates of a valid target month always reaches the insert: the
date check is necessarily satisfied because `make_date` only succeeds on a
day within the month. -/
theorem generateStep_notskip {y m : ℕ} {g s : ℕ} {σ : DBState} {item : RecurringItem}
    (hmt : item.last_generated_month.map monthTrunc ≠ some (⟨y, m, 1⟩ : Date)) :
    generateStep y m ⟨y, m, 1⟩ ⟨y, m, daysInMonth y m⟩ ⟨y, m, 1⟩ (g, s, σ) item =
      (make_date y m item.day_of_month).bind fun _ =>
        (insertExpense σ (expenseOf y m item)).map fun σ' =>
          (g + 1, s, markGenerated σ' item.id ⟨y, m, 1⟩) := by
  unfold generateStep
  rw [if_neg hmt]
  cases hmd : make_date y m item.day_of_month with
  | error e => rfl
  | ok c =>
    obtain ⟨rfl, hy, hm1, hm2, hd1, hd2⟩ := make_date_ok hmd
    have hle : Date.le ⟨y, m, item.day_of_month⟩ ⟨y, m, daysInMonth y m⟩ = true :=
      Date.le_days hd2
    have hfirst : Date.le ⟨y, m, 1⟩ ⟨y, m, item.day_of_month⟩ = true := Date.le_days hd1
    cases hins : insertExpense σ (expenseOf y m item) with
    | error e =>
      simp only [expenseOf] at hins
      simp [bind_ok_eq, bind_error_eq, map_ok_eq, map_error_eq, Except.bind, hle, hfirst, hins]
    | ok σ2 =>
      simp only [expenseOf] at hins
      simp [bind_ok_eq, bind_error_eq, map_ok_eq, map_error_eq, Except.bind, hle, hfirst, hins]

/-! ## Generation loop: invariants -/

theorem insertExpense_ok {σ σ' : DBState} {e : Expense} (h : insertExpense σ e = .ok σ') :
    σ'.categories = σ.categories ∧ σ'.recurring_items = σ.recurring_items ∧
      σ'.expenses = σ.expenses ++ [e] := by
  unfold insertExpense at h
  split_ifs at h with hc
  · injection h with h'
    subst h'
    exact ⟨rfl, rfl, rfl⟩

theorem setKey_idem (key : Date) (r : RecurringItem) :
    setKey key (setKey key r) = setKey key r := rfl

theorem rowEvolves_trans {key : Date} {a b c : RecurringItem}
    (h1 : rowEvolves key a b) (h2 : rowEvolves key b c) : rowEvolves key a c := by
  rcases h1 with rfl | rfl
  · exact h2
  · rcases h2 with rfl | rfl
    · exact Or.inr rfl
    · exact Or.inr (setKey_idem key a)

theorem forall₂_rowEvolves_refl (key : Date) (l : List RecurringItem) :
    List.Forall₂ (rowEvolves key) l l := by
  induction l with
  | nil => exact List.Forall₂.nil
  | cons a l ih => exact List.Forall₂.cons (Or.inl rfl) ih

theorem forall₂_rowEvolves_map (key : Date) (u : RecurringItem → RecurringItem)
    (hu : ∀ r, rowEvolves key r (u r)) (l : List RecurringItem) :
    List.Forall₂ (rowEvolves key) l (l.map u) := by
  induction l with
  | nil => exact List.Forall₂.nil
  | cons a l ih => exact List.Forall₂.cons (hu a) ih

theorem forall₂_rowEvolves_trans {key : Date} :
    ∀ {l1 l2 l3 : List RecurringItem}, List.Forall₂ (rowEvolves key) l1 l2 →
      List.Forall₂ (rowEvolves key) l2 l3 → List.Forall₂ (rowEvolves key) l1 l3 := by
  intro l1 l2 l3 h1
  induction h1 generalizing l3 with
  | nil =>
    intro h2
    cases h2
    exact List.Forall₂.nil
  | cons hab htl ih =>
    intro h2
    cases h2 with
    | cons hbc htl2 => exact List.Forall₂.cons (rowEvolves_trans hab hbc) (ih htl2)

theorem itemSelected_of_rowEvolves {key last : Date} {a b : RecurringItem}
    (h : rowEvolves key a b) : itemSelected last b = itemSelected last a := by
  rcases h with rfl | rfl
  · rfl
  · rfl

theorem filter_length_eq_of_forall₂ {key last : Date} :
    ∀ {l1 l2 : List RecurringItem}, List.Forall₂ (rowEvolves key) l1 l2 →
      (l2.filter (itemSelected last)).length = (l1.filter (itemSelected last)).length := by
  intro l1 l2 h
  induction h with
  | nil => rfl
  | cons hab htl ih =>
    rename_i a b l1' l2'
    rw [List.filter_cons, List.filter_cons, itemSelected_of_rowEvolves hab]
    cases hpa : itemSelected last a
    · simpa using ih
    · simpa using ih

theorem markGenerated_rowEvolves (key : Date) (itemId : ℕ) (σ : DBState) :
    List.Forall₂ (rowEvolves key) σ.recurring_items
      (markGenerated σ itemId key).recurring_items := by
  unfold markGenerated
  apply forall₂_rowEvolves_map
  intro r
  by_cases hid : r.id = itemId
  · rw [if_pos hid]
    exact Or.inr rfl
  · rw [if_neg hid]
    exact Or.inl rfl

/-- Counting invariant: a successful pass over `items` adds exactly
`items.length` to `generated_count + skipped_count`. -/
theorem generate_loop_counts {y m : ℕ} :
    ∀ (items : List RecurringItem) (g0 s0 : ℕ) (σ0 : DBState) (g s : ℕ) (σ1 : DBState),
      items.foldlM (generateStep y m ⟨y, m, 1⟩ ⟨y, m, daysInMonth y m⟩ ⟨y, m, 1⟩)
          (g0, s0, σ0) = .ok (g, s, σ1) →
      g + s = g0 + s0 + items.length := by
  intro items
  induction items with
  | nil =>
    intro g0 s0 σ0 g s σ1 h
    simp only [List.foldlM_nil] at h
    injection h with h'
    rw [Prod.mk.injEq] at h'
    obtain ⟨rfl, h2⟩ := h'
    rw [Prod.mk.injEq] at h2
    obtain ⟨rfl, rfl⟩ := h2
    simp
  | cons item rest ih =>
    intro g0 s0 σ0 g s σ1 h
    rw [List.foldlM_cons] at h
    by_cases hsk : item.last_generated_month.map monthTrunc = some (⟨y, m, 1⟩ : Date)
    · rw [generateStep_skip hsk, bind_ok_eq] at h
      have := ih g0 (s0 + 1) σ0 g s σ1 h
      simp only [List.length_cons]
      omega
    · rw [generateStep_notskip hsk] at h
      cases hmd : make_date y m item.day_of_month with
      | error e =>
        rw [hmd] at h
        exact Except.noConfusion h
      | ok c =>
        rw [hmd] at h
        cases hins : insertExpense σ0 (expenseOf y m item) with
        | error e =>
          rw [hins] at h
          exact Except.noConfusion h
        | ok σ2 =>
          rw [hins] at h
          rw [show ((Except.ok c).bind fun _ =>
              (Except.ok σ2).map fun σ' =>
                (g0 + 1, s0, markGenerated σ' item.id (⟨y, m, 1⟩ : Date))) =
              Except.ok (g0 + 1, s0, markGenerated σ2 item.id ⟨y, m, 1⟩) from rfl,
            bind_ok_eq] at h
          have := ih (g0 + 1) s0 _ g s σ1 h
          simp only [List.length_cons]
          omega

/-- Shape invariant: a successful pass leaves the categories untouched and
changes each `recurring_items` row at most by stamping the month key. -/
theorem generate_loop_shape {y m : ℕ} :
    ∀ (items : List RecurringItem) (g0 s0 : ℕ) (σ0 : DBState) (g s : ℕ) (σ1 : DBState),
      items.foldlM (generateStep y m ⟨y, m, 1⟩ ⟨y, m, daysInMonth y m⟩ ⟨y, m, 1⟩)
          (g0, s0, σ0) = .ok (g, s, σ1) →
      σ1.categories = σ0.categories ∧
        List.Forall₂ (rowEvolves ⟨y, m, 1⟩) σ0.recurring_items σ1.recurring_items := by
  intro items
  induction items with
  | nil =>
    intro g0 s0 σ0 g s σ1 h
    simp only [List.foldlM_nil] at h
    injection h with h'
    rw [Prod.mk.injEq] at h'
    obtain ⟨-, h2⟩ := h'
    rw [Prod.mk.injEq] at h2
    obtain ⟨-, rfl⟩ := h2
    exact ⟨rfl, forall₂_rowEvolves_refl _ _⟩
  | cons item rest ih =>
    intro g0 s0 σ0 g s σ1 h
    rw [List.foldlM_cons] at h
    by_cases hsk : item.last_generated_month.map monthTrunc = some (⟨y, m, 1⟩ : Date)
    · rw [generateStep_skip hsk, bind_ok_eq] at h
      exact ih g0 (s0 + 1) σ0 g s σ1 h
    · rw [generateStep_notskip hsk] at h
      cases hmd : make_date y m item.day_of_month with
      | error e =>
        rw [hmd] at h
        exact Except.noConfusion h
      | ok c =>
        rw [hmd] at h
        cases hins : insertExpense σ0 (expenseOf y m item) with
        | error e =>
          rw [hins] at h
          exact Except.noConfusion h
        | ok σ2 =>
          rw [hins] at h
          rw [show ((Except.ok c).bind fun _ =>
              (Except.ok σ2).map fun σ' =>
                (g0 + 1, s0, markGenerated σ' item.id (⟨y, m, 1⟩ : Date))) =
              Except.ok (g0 + 1, s0, markGenerated σ2 item.id ⟨y, m, 1⟩) from rfl,
            bind_ok_eq] at h
          obtain ⟨hcat, hfa⟩ := ih (g0 + 1) s0 _ g s σ1 h
          obtain ⟨hc2, hr2, -⟩ := insertExpense_ok hins
          constructor
          · rw [hcat]
            show (markGenerated σ2 item.id ⟨y, m, 1⟩).categories = σ0.categories
            unfold markGenerated
            exact hc2
          · apply forall₂_rowEvolves_trans _ hfa
            rw [← hr2]
            exact markGenerated_rowEvolves _ _ _

/-- Marker invariant: if every selected row whose marker is not the month key
occurs among the items still to be processed, then after a successful pass
every selected row carries the month key. -/
theorem generate_loop_marks {y m : ℕ} :
    ∀ (items : List RecurringItem) (g0 s0 : ℕ) (σ0 : DBState) (g s : ℕ) (σ1 : DBState),
      items.foldlM (generateStep y m ⟨y, m, 1⟩ ⟨y, m, daysInMonth y m⟩ ⟨y, m, 1⟩)
          (g0, s0, σ0) = .ok (g, s, σ1) →
      (∀ r ∈ σ0.recurring_items, itemSelected ⟨y, m, daysInMonth y m⟩ r = true →
        r.last_generated_month.map monthTrunc ≠ some ⟨y, m, 1⟩ → r ∈ items) →
      ∀ r1 ∈ σ1.recurring_items, itemSelected ⟨y, m, daysInMonth y m⟩ r1 = true →
        r1.last_generated_month.map monthTrunc = some ⟨y, m, 1⟩ := by
  intro items
  induction items with
  | nil =>
    intro g0 s0 σ0 g s σ1 h hall r1 hr1 hsel
    simp only [List.foldlM_nil] at h
    injection h with h'
    rw [Prod.mk.injEq] at h'
    obtain ⟨-, h2⟩ := h'
    rw [Prod.mk.injEq] at h2
    obtain ⟨-, rfl⟩ := h2
    by_contra hne
    exact absurd (hall r1 hr1 hsel hne) (List.not_mem_nil r1)
  | cons item rest ih =>
    intro g0 s0 σ0 g s σ1 h hall
    rw [List.foldlM_cons] at h
    by_cases hsk : item.last_generated_month.map monthTrunc = some (⟨y, m, 1⟩ : Date)
    · rw [generateStep_skip hsk, bind_ok_eq] at h
      apply ih g0 (s0 + 1) σ0 g s σ1 h
      intro r hr hsel hne
      rcases List.mem_cons.mp (hall r hr hsel hne) with rfl | hmem
      · exact absurd hsk hne
      · exact hmem
    · rw [generateStep_notskip hsk] at h
      cases hmd : make_date y m item.day_of_month with
      | error e =>
        rw [hmd] at h
        exact Except.noConfusion h
      | ok c =>
        rw [hmd] at h
        cases hins : insertExpense σ0 (expenseOf y m item) with
        | error e =>
          rw [hins] at h
          exact Except.noConfusion h
        | ok σ2 =>
          rw [hins] at h
          rw [show ((Except.ok c).bind fun _ =>
              (Except.ok σ2).map fun σ' =>
                (g0 + 1, s0, markGenerated σ' item.id (⟨y, m, 1⟩ : Date))) =
              Except.ok (g0 + 1, s0, markGenerated σ2 item.id ⟨y, m, 1⟩) from rfl,
            bind_ok_eq] at h
          apply ih (g0 + 1) s0 _ g s σ1 h
          obtain ⟨-, hr2, -⟩ := insertExpense_ok hins
          intro r hr hsel hne
          have hr' : r ∈ (markGenerated σ2 item.id (⟨y, m, 1⟩ : Date)).recurring_items := hr
          unfold markGenerated at hr'
          rw [hr2] at hr'
          simp only [List.mem_map] at hr'
          obtain ⟨r0, hr0, hru⟩ := hr'
          by_cases hid : r0.id = item.id
          · rw [if_pos hid] at hru
            exfalso
            apply hne
            rw [← hru]
            rfl
          · rw [if_neg hid] at hru
            subst hru
            rcases List.mem_cons.mp (hall r0 hr0 hsel hne) with rfl | hmem
            · exact absurd rfl hid
            · exact hmem

/-- A pass over items that all carry the month key only counts skips and
leaves the state unchanged. -/
theorem generate_loop_allskip {y m : ℕ} {first last key : Date} :
    ∀ (items : List RecurringItem) (g0 s0 : ℕ) (σ0 : DBState),
      (∀ r ∈ items, r.last_generated_month.map monthTrunc = some key) →
      items.foldlM (generateStep y m first last key) (g0, s0, σ0) =
        .ok (g0, s0 + items.length, σ0) := by
  intro items
  induction items with
  | nil =>
    intro g0 s0 σ0 _
    simp only [List.foldlM_nil, List.length_nil, Nat.add_zero]
    rfl
  | cons item rest ih =>
    intro g0 s0 σ0 hall
    rw [List.foldlM_cons,
      generateStep_skip (hall item (List.mem_cons_self item rest)), bind_ok_eq,
      ih g0 (s0 + 1) σ0 (fun r hr => hall r (List.mem_cons_of_mem item hr))]
    simp only [List.length_cons]
    rw [show s0 + 1 + rest.length = s0 + (rest.length + 1) from by omega]

/-! ## C1, C3, C4: the generation claims -/

theorem exbind_ok {ε α β : Type} (a : α) (f : α → Except ε β) :
    (Except.ok a : Except ε α).bind f = f a := rfl

theorem exbind_error {ε α β : Type} (e : ε) (f : α → Except ε β) :
    (Except.error e : Except ε α).bind f = Except.error e := rfl

/-- Unfolding of `generate_recurring_expenses` into its month guard and loop. -/
theorem generate_eq (σ : DBState) (y m : ℕ) :
    generate_recurring_expenses σ y m =
      (make_date y m 1).bind fun first =>
        (σ.recurring_items.filter (itemSelected ⟨y, m, daysInMonth y m⟩)).foldlM
          (generateStep y m first ⟨y, m, daysInMonth y m⟩ (monthTrunc first)) (0, 0, σ) := by
  unfold generate_recurring_expenses
  cases make_date y m 1 <;> rfl

/-- C1: idempotence of recurring generation. If a call for a target month
succeeds — returning `generated_count = g`, `skipped_count = s` and database
state `σ1` — then an immediately repeated call for the same month succeeds
with `generated_count = 0`, every previously processed item counted as
skipped (`skipped_count = g + s`), and the database unchanged; consequently
no (item, month) pair ever receives a second generated expense under repeated
sequential invocations. -/
theorem claim_C1_generate_idempotent (σ : DBState) (y m g s : ℕ) (σ1 : DBState)
    (h : generate_recurring_expenses σ y m = .ok (g, s, σ1)) :
    generate_recurring_expenses σ1 y m = .ok (0, g + s, σ1) := by
  rw [generate_eq] at h
  rw [generate_eq]
  revert h
  cases hmd : make_date y m 1 with
  | error e =>
    intro h
    rw [exbind_error] at h
    exact Except.noConfusion h
  | ok first =>
    intro h
    obtain ⟨rfl, hy, hm1, hm2, -, -⟩ := make_date_ok hmd
    simp only [exbind_ok, monthTrunc] at h ⊢
    obtain ⟨-, hfa⟩ := generate_loop_shape _ 0 0 σ g s σ1 h
    have hcount := generate_loop_counts _ 0 0 σ g s σ1 h
    have hmark := generate_loop_marks _ 0 0 σ g s σ1 h
      (fun r hr hsel _ => List.mem_filter.mpr ⟨hr, hsel⟩)
    have hlen : (σ1.recurring_items.filter (itemSelected ⟨y, m, daysInMonth y m⟩)).length =
        (σ.recurring_items.filter (itemSelected ⟨y, m, daysInMonth y m⟩)).length :=
      filter_length_eq_of_forall₂ hfa
    rw [generate_loop_allskip _ 0 0 σ1
      (fun r hr => hmark r (List.mem_filter.mp hr).1 (List.mem_filter.mp hr).2)]
    have hgs : (σ1.recurring_items.filter (itemSelected ⟨y, m, daysInMonth y m⟩)).length =
        g + s := by
      rw [hlen]
      omega
    rw [Nat.zero_add, hgs]

/-- Witness for C1: one active recurring item (category 7, amount 20, day 5)
with no marker; the first call for 2024-05 generates one expense dated
2024-05-05 and stamps the marker, the second call generates nothing and skips
the item, leaving the state unchanged. -/
theorem claim_C1_witness :
    generate_recurring_expenses
        ⟨[7], [⟨2, 7, 20, none, 5, ⟨2022, 1, 1⟩, none, true⟩], []⟩ 2024 5 =
      .ok (1, 0,
        ⟨[7], [⟨2, 7, 20, none, 5, ⟨2022, 1, 1⟩, some ⟨2024, 5, 1⟩, true⟩],
          [⟨7, 20, "Recurring expense", ⟨2024, 5, 5⟩⟩]⟩) ∧
    generate_recurring_expenses
        ⟨[7], [⟨2, 7, 20, none, 5, ⟨2022, 1, 1⟩, some ⟨2024, 5, 1⟩, true⟩],
          [⟨7, 20, "Recurring expense", ⟨2024, 5, 5⟩⟩]⟩ 2024 5 =
      .ok (0, 1,
        ⟨[7], [⟨2, 7, 20, none, 5, ⟨2022, 1, 1⟩, some ⟨2024, 5, 1⟩, true⟩],
          [⟨7, 20, "Recurring expense", ⟨2024, 5, 5⟩⟩]⟩) :=
  ⟨rfl,
    claim_C1_generate_idempotent ⟨[7], [⟨2, 7, 20, none, 5, ⟨2022, 1, 1⟩, none, true⟩], []⟩
      2024 5 1 0
      ⟨[7], [⟨2, 7, 20, none, 5, ⟨2022, 1, 1⟩, some ⟨2024, 5, 1⟩, true⟩],
        [⟨7, 20, "Recurring expense", ⟨2024, 5, 5⟩⟩]⟩
      rfl⟩

/-- C3 evaluated at the claimed edge case: an active item with
`day_of_month = 31` targeting February 2023 (28 days) makes the whole call
raise `date field value out of range`, because PostgreSQL's `MAKE_DATE`
validates its day argument before `LEAST` can clamp anything. The code's own
comment says this case is meant to be clamped to the month's last day, so
this is a bug in the code, not in the claim's intent. -/
theorem claim_C3_feb31_raises :
    generate_recurring_expenses
        ⟨[7], [⟨1, 7, 50, none, 31, ⟨2022, 1, 1⟩, none, true⟩], []⟩ 2023 2 =
      .error .dateOutOfRange := rfl

/-- C4 counterexample: with two active unmarked items — the first referencing
a category id (99) that no longer exists, the second a valid one (7) — the
whole call aborts with the foreign-key error. Under the claim, the second
item would still have been processed and the call would have reported
per-item results; instead no `.ok` result is produced at all. -/
theorem claim_C4_counterexample :
    generate_recurring_expenses
        ⟨[7], [⟨3, 99, 20, none, 5, ⟨2022, 1, 1⟩, none, true⟩,
               ⟨2, 7, 20, none, 5, ⟨2022, 1, 1⟩, none, true⟩], []⟩ 2024 5 =
      .error .categoryNotFound := rfl

/-- C4 amended: the generation loop has no per-item error handling, so the
first item whose expense insertion fails (here: a dangling category
reference) aborts the entire call with that error — items after it are never
processed and the call is all-or-nothing, not best-effort per item. Stated
for any state whose selected rows are an already-marked prefix, then the
failing item, then anything. -/
theorem claim_C4_amended_insert_failure_aborts (σ : DBState) (y m : ℕ)
    (pre post : List RecurringItem) (bad : RecurringItem)
    (hrows : σ.recurring_items = pre ++ bad :: post)
    (hsel : ∀ r ∈ σ.recurring_items, itemSelected ⟨y, m, daysInMonth y m⟩ r = true)
    (hpre : ∀ r ∈ pre, r.last_generated_month.map monthTrunc = some ⟨y, m, 1⟩)
    (hbadmt : bad.last_generated_month.map monthTrunc ≠ some ⟨y, m, 1⟩)
    (hy : 1 ≤ y) (hm1 : 1 ≤ m) (hm2 : m ≤ 12)
    (hd1 : 1 ≤ bad.day_of_month) (hd2 : bad.day_of_month ≤ daysInMonth y m)
    (hbadcat : bad.category_id ∉ σ.categories) :
    generate_recurring_expenses σ y m = .error .categoryNotFound := by
  rw [generate_eq, make_date_valid hy hm1 hm2 le_rfl (daysInMonth_pos y m)]
  simp only [exbind_ok, monthTrunc]
  rw [List.filter_eq_self.mpr hsel, hrows, List.foldlM_append,
    generate_loop_allskip pre 0 0 σ hpre, bind_ok_eq, List.foldlM_cons,
    generateStep_notskip hbadmt, make_date_valid hy hm1 hm2 hd1 hd2]
  have hins : insertExpense σ (expenseOf y m bad) = .error .categoryNotFound := by
    unfold insertExpense
    rw [if_neg (by simpa [expenseOf] using hbadcat)]
  rw [hins]
  rfl

/-- Witness for the amended C4 at the counterexample's concrete state. -/
theorem claim_C4_amended_witness :
    generate_recurring_expenses
        ⟨[7], [⟨3, 99, 20, none, 5, ⟨2022, 1, 1⟩, none, true⟩,
               ⟨2, 7, 20, none, 5, ⟨2022, 1, 1⟩, none, true⟩], []⟩ 2024 5 =
      .error .categoryNotFound :=
  claim_C4_amended_insert_failure_aborts
    ⟨[7], [⟨3, 99, 20, none, 5, ⟨2022, 1, 1⟩, none, true⟩,
           ⟨2, 7, 20, none, 5, ⟨2022, 1, 1⟩, none, true⟩], []⟩
    2024 5 [] [⟨2, 7, 20, none, 5, ⟨2022, 1, 1⟩, none, true⟩]
    ⟨3, 99, 20, none, 5, ⟨2022, 1, 1⟩, none, true⟩
    rfl (by decide) (by decide) (by decide)
    (by norm_num) (by norm_num) (by norm_num) (by norm_num) (by decide) (by decide)

end OpenPlanner
